import Mathlib

/-!
Verification development for the VeloBert training script
(`src/velobert/train.py`).  Tensors are embedded as lists of rationals
(flattened in row-major order); elementwise tensor operations become
`List.zipWith`, reductions become sums and means over the flattened list.
Floating-point numbers are modelled by exact rationals; a floating-point
NaN produced by a metric routine is modelled by `Option` (`none` = NaN),
and an uncaught Python exception is modelled by `Option` (`none` = the run
aborts).  The pretrained encoder, the optimizer arithmetic and the learning
dynamics are external to the properties under scrutiny; where a value is
produced by them (per-batch model outputs, per-epoch metric values) it is
threaded as an explicit input.
-/

namespace VeloBert

/-- Mean of a list of rationals, `sum(xs) / len(xs)`.  For the empty list
this is `0 / 0 = 0` in `ℚ`; call sites that would raise a
`ZeroDivisionError` in Python guard for emptiness explicitly. -/
def listMean (xs : List ℚ) : ℚ := xs.sum / (xs.length : ℚ)

/-- Elementwise Huber loss with transition threshold `δ`
(`torch.nn.HuberLoss` with `reduction = none`): quadratic for residuals of
magnitude at most `δ`, linear beyond.  `MaskedHuberLoss()` in `train.py`
line 716 uses the default `δ = 1`. -/
def huber (δ x y : ℚ) : ℚ :=
  if |x - y| ≤ δ then (x - y) ^ 2 / 2 else δ * (|x - y| - δ / 2)

/-- Embedding of `MaskedHuberLoss.forward` (train.py lines 48–57):
`weights = ones_like(label) * valid_sequence`, the elementwise Huber loss
with `reduction = none`, multiplied by the weights and reduced by `.mean()`
over ALL elements of the tensor. -/
def maskedHuberLoss (δ : ℚ) (pred label valid : List ℚ) : ℚ :=
  let weights := List.zipWith (· * ·) (label.map (fun _ => (1 : ℚ))) valid
  let unweighted := List.zipWith (fun p l => huber δ p l) pred label
  listMean (List.zipWith (· * ·) unweighted weights)

/-- Reference definition, following the wording of the spec: the standard
(unmasked) Huber loss with mean reduction, to be compared with
`maskedHuberLoss` on an all-valid batch. -/
def huberLossMean (δ : ℚ) (pred label : List ℚ) : ℚ :=
  listMean (List.zipWith (fun p l => huber δ p l) pred label)

/-- Boolean-mask selection `t[valid_sequence == 1]` on a flattened tensor:
keeps the entries whose validity indicator equals 1, in order. -/
def selectValid (xs valid : List ℚ) : List ℚ :=
  ((List.zip xs valid).filter (fun pv => pv.2 == 1)).map (fun pv => pv.1)

/-- Sum of squared deviations from the mean, the denominator of the
coefficient of determination computed by `sklearn.metrics.r2_score`. -/
def ssTot (ys : List ℚ) : ℚ := (ys.map (fun y => (y - listMean ys) ^ 2)).sum

/-- Residual sum of squares of `r2_score(y_true, y_pred)`. -/
def ssRes (yTrue yPred : List ℚ) : ℚ :=
  (List.zipWith (fun t p => (t - p) ^ 2) yTrue yPred).sum

/-- Coefficient of determination as computed by
`sklearn.metrics.r2_score(y_true, y_pred)` for at least two samples:
`1 - ssRes / ssTot`; when the target variance is zero sklearn returns `1.0`
for a perfect fit and `0.0` otherwise (no NaN is produced). -/
def r2_score (yTrue yPred : List ℚ) : ℚ :=
  if ssTot yTrue = 0 then (if ssRes yTrue yPred = 0 then 1 else 0)
  else 1 - ssRes yTrue yPred / ssTot yTrue

/-- Mean squared error, `sklearn.metrics.mean_squared_error`. -/
def mean_squared_error (yTrue yPred : List ℚ) : ℚ :=
  listMean (List.zipWith (fun t p => (t - p) ^ 2) yTrue yPred)

/-- Pearson correlation coefficient as computed by
`scipy.stats.pearsonr(x, y)[0]`: the centered cross product divided by the
square root of the product of the centered sums of squares.  When either
input is constant the division is `0 / 0` and scipy yields NaN, modelled by
`none`.  The square root forces the value into `ℝ`. -/
noncomputable def pearson (x y : List ℚ) : Option ℝ :=
  let xm : List ℚ := x.map (fun v => v - listMean x)
  let ym : List ℚ := y.map (fun v => v - listMean y)
  let sx : ℚ := (xm.map (fun v => v ^ 2)).sum
  let sy : ℚ := (ym.map (fun v => v ^ 2)).sum
  if sx = 0 ∨ sy = 0 then none
  else some ((((List.zipWith (· * ·) xm ym).sum : ℚ) : ℝ) / Real.sqrt ((sx : ℝ) * (sy : ℝ)))

/-- Embedding of `score_reg` (train.py lines 101–105):
`r2_score(label, pred)`, `mean_squared_error(label, pred)`,
`pearsonr(label, pred)[0]`.  With fewer than two samples
`scipy.stats.pearsonr` raises `ValueError` (and `r2_score` is likewise
undefined below two samples); no caller catches it, so the whole run
aborts, modelled by the outer `none`.  The inner `Option` on the
correlation models a NaN value, which does NOT abort the run. -/
noncomputable def score_reg (pred label : List ℚ) : Option (ℚ × ℚ × Option ℝ) :=
  if pred.length < 2 then none
  else some (r2_score label pred, mean_squared_error label pred, pearson label pred)

/-- One batch as it reaches the loss and metric computations of
`train_epoch` / `evaluate`: the squeezed model outputs, the target density
and the validity indicator, all flattened to lists of equal length.  The
outputs are data here because they come from the evolving network. -/
structure Batch where
  pred : List ℚ
  density : List ℚ
  valid : List ℚ
deriving Repr, DecidableEq

/-- Per-batch masked loss value appended to `loss_list`. -/
def batchLoss (δ : ℚ) (b : Batch) : ℚ := maskedHuberLoss δ b.pred b.density b.valid

/-- Per-batch metric triple: `score_reg` applied to this batch's
valid-position predictions and targets (train.py lines 186–191). -/
noncomputable def batchScore (b : Batch) : Option (ℚ × ℚ × Option ℝ) :=
  score_reg (selectValid b.pred b.valid) (selectValid b.density b.valid)

/-- Mean of a list of possibly-NaN reals: any NaN term poisons the float
sum, so the result is NaN (`none`) unless every term is an actual value. -/
noncomputable def meanOptR (xs : List (Option ℝ)) : Option ℝ :=
  (xs.mapM id).map (fun ys => ys.sum / (ys.length : ℝ))

/-- Embedding of `train_epoch` (train.py lines 144–212): per batch, the
masked loss and the per-batch `score_reg` on that batch's valid positions
are appended to four running lists, and the epoch result is the arithmetic
mean of each list.  Any batch on which `score_reg` raises aborts the run
(`none`); an empty loader aborts with `ZeroDivisionError` at the final
averaging.  Gradient and optimizer updates act only on the network, which
is external here, so they contribute no value. -/
noncomputable def train_epoch (δ : ℚ) (batches : List Batch) :
    Option (ℚ × ℚ × ℚ × Option ℝ) :=
  if batches.isEmpty then none
  else
    (batches.mapM batchScore).map (fun scores =>
      (listMean (batches.map (batchLoss δ)),
       listMean (scores.map (fun s => s.1)),
       listMean (scores.map (fun s => s.2.1)),
       meanOptR (scores.map (fun s => s.2.2))))

/-- Valid-position predictions pooled across the whole evaluation set
(the `preds` accumulator of `evaluate`, train.py lines 222, 260). -/
def pooledPreds (batches : List Batch) : List ℚ :=
  batches.flatMap (fun b => selectValid b.pred b.valid)

/-- Valid-position targets pooled across the whole evaluation set
(the `trues` accumulator of `evaluate`, train.py lines 221, 259). -/
def pooledTrues (batches : List Batch) : List ℚ :=
  batches.flatMap (fun b => selectValid b.density b.valid)

/-- Embedding of `evaluate` (train.py lines 215–275): per batch only the
masked loss is accumulated; all valid predictions and targets are pooled,
and `score_reg` runs ONCE on the pooled sequences after the loop.  If the
pooled sequences are degenerate, `score_reg` raises and the run aborts
(`none`); this also covers the empty loader (zero pooled samples).  The
plotting side effect guarded by `r2 > max_r2` is external and carries no
value. -/
noncomputable def evaluate (δ : ℚ) (batches : List Batch) :
    Option (ℚ × ℚ × ℚ × Option ℝ) :=
  (score_reg (pooledPreds batches) (pooledTrues batches)).map
    (fun s => (listMean (batches.map (batchLoss δ)), s.1, s.2.1, s.2.2))

/-- The three auxiliary feature group switches (`--aa`, `--protein`,
`--ss`, train.py lines 550–552). -/
structure FeatureFlags where
  aa : Bool
  protein : Bool
  ss : Bool
deriving Repr, DecidableEq

/-- Derived switch `args.use_additional_feature` (train.py lines 557–560):
true exactly when at least one feature group is enabled. -/
def useAdditionalFeature (f : FeatureFlags) : Bool := f.aa || f.protein || f.ss

/-- Embedding of the feature-assembly block of `train_epoch`
(train.py lines 163–174, identical in `evaluate` lines 235–246), at the
level of one position's feature vectors: when no group is enabled the
auxiliary tensor is `None`; otherwise the enabled tensors are appended to
a list in the program order aa, protein, ss and concatenated along the
feature axis, which is list append positionwise. -/
def assembleFeatures (f : FeatureFlags) (aaT proT ssT : List ℚ) : Option (List ℚ) :=
  if !useAdditionalFeature f then none
  else
    let features := (if f.aa then [aaT] else []) ++
      (if f.protein then [proT] else []) ++ (if f.ss then [ssT] else [])
    some features.flatten

/-- A fully connected layer `torch.nn.Linear`, rows of the weight matrix
paired with bias entries. -/
structure LinearLayer where
  weight : List (List ℚ)
  bias : List ℚ
deriving Repr, DecidableEq

/-- Dot product of two equally long vectors. -/
def dot (xs ys : List ℚ) : ℚ := (List.zipWith (· * ·) xs ys).sum

/-- Application of a linear layer to one input vector. -/
def linearForward (L : LinearLayer) (x : List ℚ) : List ℚ :=
  (List.zip L.weight L.bias).map (fun wb => dot wb.1 x + wb.2)

/-- Rectified linear unit on one scalar. -/
def reluQ (x : ℚ) : ℚ := max x 0

/-- Rectified linear unit applied elementwise to a vector. -/
def reluVec (xs : List ℚ) : List ℚ := xs.map reluQ

/-- The trainable layers of `CodenBert` (train.py lines 60–74):
`regressor : Linear(H, num_labels)` with `num_labels = 1` at the only
construction site (line 670), `additional_feature_layer :
Linear(feature_dim, H)` and `down_project : Linear(2H, H)`.  The wrapped
pretrained encoder is external; its per-position hidden vectors enter
`forward` as data. -/
structure CodenBert where
  regressor : LinearLayer
  additional_feature_layer : LinearLayer
  down_project : LinearLayer
deriving Repr, DecidableEq

/-- The per-position core of `CodenBert.forward` (train.py lines 76–90)
after the encoder: when auxiliary features are in use, the feature vector
is projected to width H, concatenated with the hidden vector (width 2H),
down-projected to H and rectified; then the regressor and a final
rectified linear unit are applied. -/
def codenBertForwardPos (M : CodenBert) (useAF : Bool) (h af : List ℚ) : List ℚ :=
  let seqOut :=
    if useAF then
      reluVec (linearForward M.down_project (h ++ linearForward M.additional_feature_layer af))
    else h
  reluVec (linearForward M.regressor seqOut)

/-- Embedding of `CodenBert.forward` on a whole batch: `hidden` is the
encoder output of shape (batch, positions, H) and `addFeat` the optional
assembled auxiliary tensor of shape (batch, positions, feature_dim).  The
callers (train.py lines 163–174, 178–179) pass `None` exactly when
`use_additional_feature` is off, so the `Option` is only consulted in the
enabled branch. -/
def codenBertForward (M : CodenBert) (f : FeatureFlags)
    (hidden : List (List (List ℚ))) (addFeat : Option (List (List (List ℚ)))) :
    List (List (List ℚ)) :=
  if useAdditionalFeature f then
    (List.zip hidden (addFeat.getD [])).map (fun bp =>
      (List.zip bp.1 bp.2).map (fun p => codenBertForwardPos M true p.1 p.2))
  else
    hidden.map (fun seq => seq.map (fun h => codenBertForwardPos M false h []))

/-- Chunking of a dataset into consecutive batches of size `bs`, the
batching behaviour of `torch.utils.data.DataLoader` (the random reshuffle
of the training loader permutes the items first and is external to the
batch-size behaviour studied here; a `DataLoader` rejects `bs = 0` at
construction, rendered as the empty loader). -/
def chunkList (bs : ℕ) : List α → List (List α)
  | [] => []
  | x :: rest =>
    if _h : bs = 0 then []
    else (x :: rest).take bs :: chunkList bs ((x :: rest).drop bs)
termination_by xs => xs.length
decreasing_by
  simp only [List.length_drop, List.length_cons]
  omega

/-- Configuration values consumed by the training core, from the argument
parser of `main` (defaults at train.py lines 369–553). -/
structure Args where
  output_dir : String
  aa : Bool
  protein : Bool
  ss : Bool
  num_train_epochs : ℕ
  batch_size : ℕ
  learning_rate : ℚ
  lr_min : ℚ
deriving Repr, DecidableEq

/-- Training loader construction (train.py line 706):
`DataLoader(train_dataset, batch_size=batch_size, shuffle=True)` with
`batch_size = args.batch_size` (line 598). -/
def buildTrainLoader (args : Args) (data : List α) : List (List α) :=
  chunkList args.batch_size data

/-- Evaluation loader construction (train.py line 707):
`DataLoader(test_dataset, batch_size=1)` — the batch size is the literal
1, not the configured one. -/
def buildEvalLoader (_args : Args) (data : List α) : List (List α) :=
  chunkList 1 data

/-- Collation of a chunk of per-sequence tensors into one batch: stacking
flattens, in row-major order, to concatenation of the per-sequence lists. -/
def collate (chunk : List Batch) : Batch :=
  ⟨chunk.flatMap Batch.pred, chunk.flatMap Batch.density, chunk.flatMap Batch.valid⟩

/-- The feature-flag path suffix appended, in the fixed program order aa,
protein, ss, to the CSV log paths (train.py lines 294–302) and to the
cross-fold summary path (lines 609–617). -/
def featSuffix (args : Args) : String :=
  (if args.aa then "_aa" else "") ++ (if args.protein then "_protein" else "") ++
    (if args.ss then "_ss" else "")

/-- Path of the training CSV log (train.py lines 291, 294–304): built from
the output directory, the epoch count and the feature suffix; it does not
mention the fold. -/
def trainLogPath (args : Args) : String :=
  args.output_dir ++ "/logs/train_log_" ++ toString args.num_train_epochs ++
    featSuffix args ++ ".csv"

/-- Path of the evaluation CSV log (train.py lines 292, 294–305). -/
def evalLogPath (args : Args) : String :=
  args.output_dir ++ "/logs/eval_log_" ++ toString args.num_train_epochs ++
    featSuffix args ++ ".csv"

/-- Path of the cross-fold summary CSV (train.py lines 605, 609–619). -/
def bestResultPath (args : Args) : String :=
  args.output_dir ++ "/best_results" ++ featSuffix args ++ ".csv"

/-- Checkpoint tags used by `save` calls inside `train_and_validate`
(train.py lines 324, 335, 343). -/
inductive SaveTag where
  | last
  | bestEvalLoss
  | best
deriving Repr, DecidableEq

/-- The per-fold best trackers of `train_and_validate`
(train.py lines 281–285), in declaration order:
`max_r2, min_mse, max_corr, best_loss, best_eval_loss`. -/
structure FoldState where
  maxR2 : ℚ
  minMse : ℚ
  maxCorr : ℚ
  bestLoss : ℚ
  bestEvalLoss : ℚ
deriving Repr, DecidableEq

/-- Initial tracker values (train.py lines 281–285): the sentinel extremes
`max_r2 = -1e8`, `min_mse = 1e8`, `max_corr = -1e8`, `best_loss = 1e8`,
`best_eval_loss = 1e8`. -/
def initFoldState : FoldState :=
  ⟨-100000000, 100000000, -100000000, 100000000, 100000000⟩

/-- Scalar metric values of one epoch as returned by `train_epoch` and
`evaluate`.  The tracker logic of `train_and_validate` only threads these
values; they are produced by the learning dynamics, which are external
here, so they enter the fold run as data. -/
structure EpochMetrics where
  trainLoss : ℚ
  trainR2 : ℚ
  trainMse : ℚ
  trainCorr : ℚ
  evalLoss : ℚ
  evalR2 : ℚ
  evalMse : ℚ
  evalCorr : ℚ
deriving Repr, DecidableEq

/-- Observable actions of `train_and_validate` and `main`, in program
order.  `constructModel` covers the fresh encoder plus fusion head built
inside the fold loop (train.py lines 647–670), `constructOptimizer` the
fresh `AdamW(model.parameters(), lr=args.learning_rate)` (line 711) and
`constructScheduler` the fresh
`CosineAnnealingLR(optimizer, T_max=num_epoch, eta_min=lr_min)`
(line 714), recording its horizon and floor learning rate. -/
inductive Event where
  | constructModel (fold : ℕ)
  | constructOptimizer (fold : ℕ) (lr : ℚ)
  | constructScheduler (fold : ℕ) (tMax : ℕ) (etaMin : ℚ)
  | trainPass (fold epoch : ℕ)
  | schedulerStep (fold epoch : ℕ)
  | evalPass (fold epoch : ℕ)
  | saveCkpt (fold : ℕ) (tag : SaveTag)
  | writeLog (path : String) (row : List ℚ)
deriving Repr, DecidableEq

/-- One epoch of `train_and_validate` (train.py lines 307–357) as a state
transition on the best trackers plus the emitted event sequence, in source
order: training pass (line 311), scheduler step (313), training-log row
(316–318), unconditional save of the last checkpoint (324), update of
`best_loss` with no save of its own (326–327), evaluation pass (332,
executed every epoch since `epoch_val = 1`), conditional
`best_eval_loss` update and save (333–335), conditional atomic update of
`(max_r2, min_mse, max_corr)` and save of the best checkpoint (339–343),
evaluation-log row (345–347). -/
def epochTrace (args : Args) (fold : ℕ) (s : FoldState) (epoch : ℕ)
    (m : EpochMetrics) : FoldState × List Event :=
  let s1 : FoldState :=
    if m.trainLoss < s.bestLoss then
      ⟨s.maxR2, s.minMse, s.maxCorr, m.trainLoss, s.bestEvalLoss⟩
    else s
  let p2 : FoldState × List Event :=
    if m.evalLoss < s1.bestEvalLoss then
      (⟨s1.maxR2, s1.minMse, s1.maxCorr, s1.bestLoss, m.evalLoss⟩,
       [Event.saveCkpt fold SaveTag.bestEvalLoss])
    else (s1, [])
  let p3 : FoldState × List Event :=
    if p2.1.maxR2 < m.evalR2 then
      (⟨m.evalR2, m.evalMse, m.evalCorr, p2.1.bestLoss, p2.1.bestEvalLoss⟩,
       [Event.saveCkpt fold SaveTag.best])
    else (p2.1, [])
  (p3.1,
   [Event.trainPass fold epoch, Event.schedulerStep fold epoch,
    Event.writeLog (trainLogPath args)
      [(epoch : ℚ), m.trainLoss, m.trainR2, m.trainMse, m.trainCorr],
    Event.saveCkpt fold SaveTag.last, Event.evalPass fold epoch] ++
   p2.2 ++ p3.2 ++
   [Event.writeLog (evalLogPath args)
      [(epoch : ℚ), m.evalLoss, m.evalR2, m.evalMse, m.evalCorr]])

/-- The epoch loop of `train_and_validate` (train.py lines 307–359) over a
list of per-epoch metric values, starting at epoch number `epoch`,
returning the final tracker state and the concatenated event sequence. -/
def train_and_validate (args : Args) (fold : ℕ) :
    FoldState → ℕ → List EpochMetrics → FoldState × List Event
  | s, _, [] => (s, [])
  | s, epoch, m :: ms =>
    let p := epochTrace args fold s epoch m
    let q := train_and_validate args fold p.1 (epoch + 1) ms
    (q.1, p.2 ++ q.2)

/-- The checkpoint tags written during an event sequence, in order. -/
def savedTags (evs : List Event) : List SaveTag :=
  evs.filterMap (fun e => match e with
    | Event.saveCkpt _ t => some t
    | _ => none)

/-- The rows appended to the CSV file at path `p` during an event
sequence, in order (all CSV files are opened in append mode). -/
def logRows (evs : List Event) (p : String) : List (List ℚ) :=
  evs.filterMap (fun e => match e with
    | Event.writeLog q row => if q = p then some row else none
    | _ => none)

/-- The per-epoch metric values of fold index `i` (an oracle for the
learning dynamics): the fold runs exactly `args.num_train_epochs` epochs,
numbered from 1 (train.py line 307). -/
def epochList (args : Args) (metricsOf : ℕ → ℕ → EpochMetrics) (i : ℕ) :
    List EpochMetrics :=
  (List.range args.num_train_epochs).map (fun k => metricsOf i (k + 1))

/-- One iteration of the fold loop of `main` (train.py lines 621–729):
fresh model, optimizer and cosine-annealing scheduler, the epoch loop from
the sentinel tracker state, then one summary row
`[fold_number, max_r2, min_mse, max_corr]` appended to the cross-fold
summary CSV (lines 723–725).  Returns the events and the fold triple
`(max_r2, min_mse, max_corr)` collected into the cross-fold lists. -/
def foldBlock (args : Args) (metricsOf : ℕ → ℕ → EpochMetrics) (i : ℕ) :
    List Event × (ℚ × ℚ × ℚ) :=
  let r := train_and_validate args (i + 1) initFoldState 1 (epochList args metricsOf i)
  ([Event.constructModel (i + 1),
    Event.constructOptimizer (i + 1) args.learning_rate,
    Event.constructScheduler (i + 1) args.num_train_epochs args.lr_min] ++
   r.2 ++
   [Event.writeLog (bestResultPath args)
      [((i : ℚ) + 1), r.1.maxR2, r.1.minMse, r.1.maxCorr]],
   (r.1.maxR2, r.1.minMse, r.1.maxCorr))

/-- The fold loop and final aggregation of `main` (train.py lines
621–737): exactly `for i in range(10)` iterations of `foldBlock`, then the
arithmetic mean of each collected per-fold metric list, each divided by
the length of the list as in `sum(r2_list) / len(r2_list)`. -/
def main (args : Args) (metricsOf : ℕ → ℕ → EpochMetrics) :
    List Event × (ℚ × ℚ × ℚ) :=
  let blocks := (List.range 10).map (foldBlock args metricsOf)
  let r2List := blocks.map (fun b => b.2.1)
  let mseList := blocks.map (fun b => b.2.2.1)
  let corrList := blocks.map (fun b => b.2.2.2)
  ((blocks.map (fun b => b.1)).flatten,
   (r2List.sum / (r2List.length : ℚ),
    mseList.sum / (mseList.length : ℚ),
    corrList.sum / (corrList.length : ℚ)))

/-- Recognizer for model-construction events. -/
def isConstructModel : Event → Bool
  | Event.constructModel _ => true
  | _ => false

/-- Recognizer for optimizer-construction events. -/
def isConstructOptimizer : Event → Bool
  | Event.constructOptimizer _ _ => true
  | _ => false

/-- Recognizer for scheduler-construction events. -/
def isConstructScheduler : Event → Bool
  | Event.constructScheduler _ _ _ => true
  | _ => false

/-- Recognizer for scheduler-step events. -/
def isSchedulerStep : Event → Bool
  | Event.schedulerStep _ _ => true
  | _ => false

/-- Shape agreement between the encoder output and the assembled auxiliary
tensor as guaranteed by the dataset invariant (all per-position tensors of
a batch share the padded length): when features are enabled, the auxiliary
tensor is present and agrees with the hidden states in batch size and
position count. -/
def shapeOkAux (f : FeatureFlags) (hidden : List (List (List ℚ)))
    (addFeat : Option (List (List (List ℚ)))) : Prop :=
  if useAdditionalFeature f then
    ∃ fs, addFeat = some fs ∧ fs.length = hidden.length ∧
      List.Forall₂ (fun (fseq hseq : List (List ℚ)) => fseq.length = hseq.length) fs hidden
  else True

/-! Helper lemmas shared by several developments below. -/

/-- Multiplying elementwise by ones (`ones_like(label)`) leaves the other
factor unchanged when the lengths agree. -/
lemma zipWith_mul_ones (l v : List ℚ) (h : v.length = l.length) :
    List.zipWith (· * ·) (l.map (fun _ => (1 : ℚ))) v = v := by
  induction l generalizing v with
  | nil => cases v with
    | nil => rfl
    | cons x xs => simp at h
  | cons a t ih =>
    cases v with
    | nil => simp at h
    | cons x xs =>
      simp only [List.map_cons, List.zipWith_cons_cons, one_mul]
      rw [ih xs (by simpa using h)]

/-- Multiplying elementwise by an all-ones mask of matching length leaves
the list unchanged. -/
lemma zipWith_mul_replicate_one (xs : List ℚ) :
    List.zipWith (· * ·) xs (List.replicate xs.length 1) = xs := by
  induction xs with
  | nil => rfl
  | cons a t ih => simp only [List.length_cons, List.replicate_succ,
      List.zipWith_cons_cons, mul_one, ih]

/-- Multiplying elementwise by an all-zero mask yields zero sum. -/
lemma zipWith_mul_replicate_zero_sum (xs : List ℚ) (n : ℕ) :
    (List.zipWith (· * ·) xs (List.replicate n 0)).sum = 0 := by
  induction xs generalizing n with
  | nil => simp
  | cons a t ih =>
    cases n with
    | zero => simp
    | succ k => simp [List.replicate_succ, ih]

/-! Claim C1: the Masked Regression Loss. -/

/-- C1: for prediction, target and validity tensors of one common shape,
the Masked Regression Loss is the elementwise Huber loss times the
validity indicator, averaged over ALL elements — the denominator is the
total element count; consequently an all-valid batch gives the standard
Huber loss mean and an all-invalid batch gives 0. -/
theorem c1_masked_regression_loss (δ : ℚ) (pred label valid : List ℚ)
    (h1 : pred.length = label.length) (h2 : valid.length = label.length) :
    maskedHuberLoss δ pred label valid =
      (List.zipWith (· * ·) (List.zipWith (fun p l => huber δ p l) pred label) valid).sum /
        (label.length : ℚ)
    ∧ (valid = List.replicate label.length 1 →
        maskedHuberLoss δ pred label valid = huberLossMean δ pred label)
    ∧ (valid = List.replicate label.length 0 →
        maskedHuberLoss δ pred label valid = 0) := by
  have hw : List.zipWith (· * ·) (label.map (fun _ => (1 : ℚ))) valid = valid :=
    zipWith_mul_ones label valid h2
  have hlen : (List.zipWith (fun p l => huber δ p l) pred label).length = label.length := by
    simp [List.length_zipWith, h1]
  refine ⟨?_, ?_, ?_⟩
  · rw [maskedHuberLoss, hw, listMean]
    have : (List.zipWith (· * ·) (List.zipWith (fun p l => huber δ p l) pred label) valid).length
        = label.length := by
      simp [List.length_zipWith, h1, h2]
    rw [this]
  · intro hv
    rw [maskedHuberLoss, hw, hv, ← hlen, zipWith_mul_replicate_one, huberLossMean]
  · intro hv
    rw [maskedHuberLoss, hw, hv, listMean, zipWith_mul_replicate_zero_sum, zero_div]

/-- Witness for C1 at a concrete input: two positions, one valid; the
masked loss is the Huber value of the valid position divided by the full
element count 2. -/
theorem c1_masked_regression_loss_witness :
    ([(0 : ℚ), 2].length = [(1 : ℚ), 0].length ∧ [(1 : ℚ), 0].length = [(1 : ℚ), 0].length)
    ∧ maskedHuberLoss 1 [0, 2] [1, 0] [1, 0] = 1 / 4 := by
  have h := (c1_masked_regression_loss 1 [0, 2] [1, 0] [1, 0] rfl rfl).1
  refine ⟨⟨rfl, rfl⟩, h.trans ?_⟩
  norm_num [huber]

/-! Claim C7: auxiliary feature assembly and independence from unused
auxiliary inputs. -/

/-- C7: the auxiliary tensor handed to the fusion head is the
concatenation of exactly the enabled feature groups in the fixed order
aa, protein, ss (and `None` when no group is enabled); with all groups
disabled the model output is the same for any auxiliary argument. -/
theorem c7_feature_assembly :
    (∀ (f : FeatureFlags) (aaT proT ssT : List ℚ),
        assembleFeatures f aaT proT ssT =
          if useAdditionalFeature f then
            some ((if f.aa then aaT else []) ++ (if f.protein then proT else []) ++
              (if f.ss then ssT else []))
          else none)
    ∧ (∀ (M : CodenBert) (hidden : List (List (List ℚ)))
        (a1 a2 : Option (List (List (List ℚ)))),
        codenBertForward M ⟨false, false, false⟩ hidden a1 =
          codenBertForward M ⟨false, false, false⟩ hidden a2)
    ∧ useAdditionalFeature ⟨false, false, false⟩ = false := by
  refine ⟨?_, ?_, rfl⟩
  · intro f aaT proT ssT
    rcases f with ⟨a, p, s⟩
    cases a <;> cases p <;> cases s <;> simp [assembleFeatures, useAdditionalFeature]
  · intro M hidden a1 a2
    simp [codenBertForward, useAdditionalFeature]

/-! Claim C4: degenerate metric inputs. -/

/-- C4 evidence: with a single valid point, `score_reg` raises (scipy
`pearsonr` requires at least two samples) and no caller catches the
exception, so a training epoch containing such a batch aborts the run;
with at least two points but constant targets, the returned R² is the
ordinary number 0 while the paired correlation is NaN, so the value CAN
win a best-so-far comparison against the sentinel and carry the NaN
correlation into the trackers. -/
theorem c4_degenerate_metrics :
    score_reg [(1 : ℚ) / 2] [(1 : ℚ) / 5] = none
    ∧ train_epoch 1 [⟨[1 / 2], [1 / 5], [1]⟩] = none
    ∧ score_reg [(1 : ℚ), 2] [(3 : ℚ), 3] = some (0, 5 / 2, none)
    ∧ ((0 : ℚ) > initFoldState.maxR2) := by
  refine ⟨by simp [score_reg], ?_, ?_, by norm_num [initFoldState]⟩
  · have hb : batchScore ⟨[1 / 2], [1 / 5], [1]⟩ = none := by
      simp [batchScore, score_reg, selectValid]
    simp only [train_epoch, List.mapM, List.mapM.loop, hb]
    simp
  · have hr : r2_score [(3 : ℚ), 3] [1, 2] = 0 := by
      norm_num [r2_score, ssTot, ssRes, listMean]
    have hm : mean_squared_error [(3 : ℚ), 3] [1, 2] = 5 / 2 := by
      norm_num [mean_squared_error, listMean]
    have hp : pearson [(3 : ℚ), 3] [1, 2] = none := by
      norm_num [pearson, listMean]
    simp [score_reg, hr, hm, hp]

/-! State-machine lemmas for the per-epoch tracker transition. -/

/-- The tracked maximal R² after one epoch is the maximum of the previous
tracker and the epoch's evaluation R². -/
lemma epochTrace_maxR2 (args : Args) (fold : ℕ) (s : FoldState) (epoch : ℕ)
    (m : EpochMetrics) :
    (epochTrace args fold s epoch m).1.maxR2 = max s.maxR2 m.evalR2 := by
  simp only [epochTrace]
  split_ifs <;> simp_all [max_def] <;> split_ifs <;> linarith

/-- The tracked paired MSE after one epoch. -/
lemma epochTrace_minMse (args : Args) (fold : ℕ) (s : FoldState) (epoch : ℕ)
    (m : EpochMetrics) :
    (epochTrace args fold s epoch m).1.minMse =
      (if s.maxR2 < m.evalR2 then m.evalMse else s.minMse) := by
  simp only [epochTrace]
  split_ifs <;> simp_all

/-- The tracked paired correlation after one epoch. -/
lemma epochTrace_maxCorr (args : Args) (fold : ℕ) (s : FoldState) (epoch : ℕ)
    (m : EpochMetrics) :
    (epochTrace args fold s epoch m).1.maxCorr =
      (if s.maxR2 < m.evalR2 then m.evalCorr else s.maxCorr) := by
  simp only [epochTrace]
  split_ifs <;> simp_all

/-- The tracked minimal training loss after one epoch. -/
lemma epochTrace_bestLoss (args : Args) (fold : ℕ) (s : FoldState) (epoch : ℕ)
    (m : EpochMetrics) :
    (epochTrace args fold s epoch m).1.bestLoss = min s.bestLoss m.trainLoss := by
  simp only [epochTrace]
  split_ifs <;> simp_all [min_def] <;> split_ifs <;> linarith

/-- The tracked minimal evaluation loss after one epoch. -/
lemma epochTrace_bestEvalLoss (args : Args) (fold : ℕ) (s : FoldState) (epoch : ℕ)
    (m : EpochMetrics) :
    (epochTrace args fold s epoch m).1.bestEvalLoss = min s.bestEvalLoss m.evalLoss := by
  simp only [epochTrace]
  split_ifs <;> simp_all [min_def] <;> split_ifs <;> linarith

/-- The event sequence of one epoch in closed form: the five unconditional
actions, then the conditional save of the best-eval-loss checkpoint, then
the conditional save of the best checkpoint, then the evaluation-log row. -/
lemma epochTrace_events (args : Args) (fold : ℕ) (s : FoldState) (epoch : ℕ)
    (m : EpochMetrics) :
    (epochTrace args fold s epoch m).2 =
      [Event.trainPass fold epoch, Event.schedulerStep fold epoch,
       Event.writeLog (trainLogPath args)
         [(epoch : ℚ), m.trainLoss, m.trainR2, m.trainMse, m.trainCorr],
       Event.saveCkpt fold SaveTag.last, Event.evalPass fold epoch] ++
      (if m.evalLoss < s.bestEvalLoss then [Event.saveCkpt fold SaveTag.bestEvalLoss] else []) ++
      (if s.maxR2 < m.evalR2 then [Event.saveCkpt fold SaveTag.best] else []) ++
      [Event.writeLog (evalLogPath args)
         [(epoch : ℚ), m.evalLoss, m.evalR2, m.evalMse, m.evalCorr]] := by
  simp only [epochTrace]
  split_ifs <;> simp_all

/-- Tracker components of the whole epoch loop: each of the three best
trackers is the fold of its comparison over the per-epoch values, started
at the incoming state. -/
lemma train_and_validate_trackers (args : Args) (fold : ℕ) :
    ∀ (ms : List EpochMetrics) (s : FoldState) (epoch : ℕ),
    (train_and_validate args fold s epoch ms).1.maxR2 =
        (ms.map (fun m => m.evalR2)).foldl max s.maxR2
    ∧ (train_and_validate args fold s epoch ms).1.bestEvalLoss =
        (ms.map (fun m => m.evalLoss)).foldl min s.bestEvalLoss
    ∧ (train_and_validate args fold s epoch ms).1.bestLoss =
        (ms.map (fun m => m.trainLoss)).foldl min s.bestLoss := by
  intro ms
  induction ms with
  | nil => intro s epoch; exact ⟨rfl, rfl, rfl⟩
  | cons m t ih =>
    intro s epoch
    have h := ih (epochTrace args fold s epoch m).1 (epoch + 1)
    refine ⟨?_, ?_, ?_⟩
    · simpa [train_and_validate, epochTrace_maxR2] using h.1
    · simpa [train_and_validate, epochTrace_bestEvalLoss] using h.2.1
    · simpa [train_and_validate, epochTrace_bestLoss] using h.2.2

/-! Claim C5: sentinel initialization, best-so-far tracking, atomic triple
update with best-checkpoint persistence. -/

/-- C5: the trackers start at the sentinel extremes (−1e8 for the maxima,
+1e8 for the minima); after any number of epochs each of the three
trackers equals the best value of its criterion seen so far (the fold of
max respectively min over the observed values, from the sentinel); and in
each single epoch, exactly when the evaluation R² strictly exceeds the
running maximum, the triple (max R², paired MSE, paired correlation) is
replaced together by this epoch's values and the best checkpoint is
saved. -/
theorem c5_best_trackers (args : Args) (fold : ℕ) (ms : List EpochMetrics) :
    (initFoldState.maxR2 = -100000000 ∧ initFoldState.maxCorr = -100000000 ∧
     initFoldState.minMse = 100000000 ∧ initFoldState.bestLoss = 100000000 ∧
     initFoldState.bestEvalLoss = 100000000)
    ∧ (train_and_validate args fold initFoldState 1 ms).1.maxR2 =
        (ms.map (fun m => m.evalR2)).foldl max initFoldState.maxR2
    ∧ (train_and_validate args fold initFoldState 1 ms).1.bestEvalLoss =
        (ms.map (fun m => m.evalLoss)).foldl min initFoldState.bestEvalLoss
    ∧ (train_and_validate args fold initFoldState 1 ms).1.bestLoss =
        (ms.map (fun m => m.trainLoss)).foldl min initFoldState.bestLoss
    ∧ (∀ (s : FoldState) (epoch : ℕ) (m : EpochMetrics),
        ((epochTrace args fold s epoch m).1.maxR2,
         (epochTrace args fold s epoch m).1.minMse,
         (epochTrace args fold s epoch m).1.maxCorr) =
          (if s.maxR2 < m.evalR2 then (m.evalR2, m.evalMse, m.evalCorr)
           else (s.maxR2, s.minMse, s.maxCorr))
        ∧ (Event.saveCkpt fold SaveTag.best ∈ (epochTrace args fold s epoch m).2 ↔
            s.maxR2 < m.evalR2)) := by
  have ht := train_and_validate_trackers args fold ms initFoldState 1
  refine ⟨⟨rfl, rfl, rfl, rfl, rfl⟩, ht.1, ht.2.1, ht.2.2, ?_⟩
  intro s epoch m
  constructor
  · rw [epochTrace_maxR2, epochTrace_minMse, epochTrace_maxCorr]
    by_cases h : s.maxR2 < m.evalR2
    · simp [h, max_eq_right h.le]
    · simp [h, max_eq_left (not_lt.mp h)]
  · rw [epochTrace_events]
    by_cases h : s.maxR2 < m.evalR2 <;>
      by_cases h2 : m.evalLoss < s.bestEvalLoss <;> simp [h, h2]

/-! Claim C2: which criteria persist checkpoints. -/

/-- C2 counterexample: starting from the sentinel state, an epoch whose
training loss strictly improves on the best training loss but whose
evaluation metrics do not improve writes exactly the unconditional last
checkpoint — the same single write as an epoch whose training loss does
not improve.  No checkpoint write is tied to the training-loss criterion,
refuting the claim that each of the three criteria persists a
checkpoint. -/
theorem c2_counterexample :
    (⟨5, 0, 0, 0, 100000000, -100000000, 0, 0⟩ : EpochMetrics).trainLoss <
      initFoldState.bestLoss
    ∧ ¬ ((⟨200000000, 0, 0, 0, 100000000, -100000000, 0, 0⟩ : EpochMetrics).trainLoss <
      initFoldState.bestLoss)
    ∧ savedTags (epochTrace ⟨"out", false, false, false, 1, 16, 5, 1⟩ 1 initFoldState 1
        ⟨5, 0, 0, 0, 100000000, -100000000, 0, 0⟩).2 = [SaveTag.last]
    ∧ savedTags (epochTrace ⟨"out", false, false, false, 1, 16, 5, 1⟩ 1 initFoldState 1
        ⟨200000000, 0, 0, 0, 100000000, -100000000, 0, 0⟩).2 = [SaveTag.last] := by
  decide

/-- C2 amended: the selector tracks best-so-far values for all three
criteria, but persists improvement checkpoints only for evaluation loss
(best-eval-loss tag) and evaluation R² (best tag); the last checkpoint is
written unconditionally every epoch, and a training-loss improvement only
updates the tracker variable without any checkpoint write of its own. -/
theorem c2_amended_checkpoint_writes (args : Args) (fold : ℕ) (s : FoldState)
    (epoch : ℕ) (m : EpochMetrics) :
    savedTags (epochTrace args fold s epoch m).2 =
      SaveTag.last ::
        ((if m.evalLoss < s.bestEvalLoss then [SaveTag.bestEvalLoss] else []) ++
         (if s.maxR2 < m.evalR2 then [SaveTag.best] else []))
    ∧ (epochTrace args fold s epoch m).1.bestLoss = min s.bestLoss m.trainLoss := by
  refine ⟨?_, epochTrace_bestLoss args fold s epoch m⟩
  rw [epochTrace_events]
  by_cases h : s.maxR2 < m.evalR2 <;>
    by_cases h2 : m.evalLoss < s.bestEvalLoss <;> simp [h, h2, savedTags]

/-! Path and log-journal lemmas. -/

/-- The three CSV paths of one configuration are pairwise distinct (their
lengths already differ, because the fixed middle segments have different
lengths and the epoch-count digits appear in both log paths). -/
lemma trainLogPath_ne_evalLogPath (args : Args) : trainLogPath args ≠ evalLogPath args := by
  intro h
  have hl := congrArg String.length h
  rw [trainLogPath, evalLogPath] at hl
  simp only [String.length_append] at hl
  have e1 : ("/logs/train_log_" : String).length = 16 := by decide
  have e2 : ("/logs/eval_log_" : String).length = 15 := by decide
  rw [e1, e2] at hl
  omega

/-- The training log path differs from the cross-fold summary path. -/
lemma trainLogPath_ne_bestResultPath (args : Args) :
    trainLogPath args ≠ bestResultPath args := by
  intro h
  have hl := congrArg String.length h
  rw [trainLogPath, bestResultPath] at hl
  simp only [String.length_append] at hl
  have e1 : ("/logs/train_log_" : String).length = 16 := by decide
  have e2 : ("/best_results" : String).length = 13 := by decide
  rw [e1, e2] at hl
  omega

/-- The evaluation log path differs from the cross-fold summary path. -/
lemma evalLogPath_ne_bestResultPath (args : Args) :
    evalLogPath args ≠ bestResultPath args := by
  intro h
  have hl := congrArg String.length h
  rw [evalLogPath, bestResultPath] at hl
  simp only [String.length_append] at hl
  have e1 : ("/logs/eval_log_" : String).length = 15 := by decide
  have e2 : ("/best_results" : String).length = 13 := by decide
  rw [e1, e2] at hl
  omega

/-- Log rows distribute over concatenated event sequences. -/
lemma logRows_append (l1 l2 : List Event) (p : String) :
    logRows (l1 ++ l2) p = logRows l1 p ++ logRows l2 p :=
  List.filterMap_append l1 l2 _

/-- Log rows of a flattened sequence of event blocks. -/
lemma logRows_flatten (L : List (List Event)) (p : String) :
    logRows L.flatten p = (L.map (fun l => logRows l p)).flatten := by
  induction L with
  | nil => rfl
  | cons a t ih => simp [logRows_append, ih]

/-- One epoch writes exactly one row to the training log. -/
lemma logRows_epochTrace_train (args : Args) (fold : ℕ) (s : FoldState) (epoch : ℕ)
    (m : EpochMetrics) :
    logRows (epochTrace args fold s epoch m).2 (trainLogPath args) =
      [[(epoch : ℚ), m.trainLoss, m.trainR2, m.trainMse, m.trainCorr]] := by
  rw [epochTrace_events]
  have hne := (trainLogPath_ne_evalLogPath args).symm
  by_cases h : s.maxR2 < m.evalR2 <;>
    by_cases h2 : m.evalLoss < s.bestEvalLoss <;> simp [h, h2, logRows, hne]

/-- One epoch writes exactly one row to the evaluation log. -/
lemma logRows_epochTrace_eval (args : Args) (fold : ℕ) (s : FoldState) (epoch : ℕ)
    (m : EpochMetrics) :
    logRows (epochTrace args fold s epoch m).2 (evalLogPath args) =
      [[(epoch : ℚ), m.evalLoss, m.evalR2, m.evalMse, m.evalCorr]] := by
  rw [epochTrace_events]
  have hne := trainLogPath_ne_evalLogPath args
  by_cases h : s.maxR2 < m.evalR2 <;>
    by_cases h2 : m.evalLoss < s.bestEvalLoss <;> simp [h, h2, logRows, hne]

/-- One epoch writes nothing to any path other than the two log paths. -/
lemma logRows_epochTrace_other (args : Args) (fold : ℕ) (s : FoldState) (epoch : ℕ)
    (m : EpochMetrics) (p : String) (hp1 : trainLogPath args ≠ p)
    (hp2 : evalLogPath args ≠ p) :
    logRows (epochTrace args fold s epoch m).2 p = [] := by
  rw [epochTrace_events]
  by_cases h : s.maxR2 < m.evalR2 <;>
    by_cases h2 : m.evalLoss < s.bestEvalLoss <;> simp [h, h2, logRows, hp1, hp2]

/-- The epoch loop writes one training-log row per epoch. -/
lemma logRows_tav_train (args : Args) (fold : ℕ) :
    ∀ (ms : List EpochMetrics) (s : FoldState) (epoch : ℕ),
    (logRows (train_and_validate args fold s epoch ms).2 (trainLogPath args)).length =
      ms.length := by
  intro ms
  induction ms with
  | nil => intro s epoch; rfl
  | cons m t ih =>
    intro s epoch
    simp only [train_and_validate]
    rw [logRows_append, List.length_append, logRows_epochTrace_train]
    simp [ih]
    omega

/-- The epoch loop writes one evaluation-log row per epoch. -/
lemma logRows_tav_eval (args : Args) (fold : ℕ) :
    ∀ (ms : List EpochMetrics) (s : FoldState) (epoch : ℕ),
    (logRows (train_and_validate args fold s epoch ms).2 (evalLogPath args)).length =
      ms.length := by
  intro ms
  induction ms with
  | nil => intro s epoch; rfl
  | cons m t ih =>
    intro s epoch
    simp only [train_and_validate]
    rw [logRows_append, List.length_append, logRows_epochTrace_eval]
    simp [ih]
    omega

/-- The epoch loop writes nothing to paths other than the two log paths. -/
lemma logRows_tav_other (args : Args) (fold : ℕ) (p : String)
    (hp1 : trainLogPath args ≠ p) (hp2 : evalLogPath args ≠ p) :
    ∀ (ms : List EpochMetrics) (s : FoldState) (epoch : ℕ),
    logRows (train_and_validate args fold s epoch ms).2 p = [] := by
  intro ms
  induction ms with
  | nil => intro s epoch; rfl
  | cons m t ih =>
    intro s epoch
    simp only [train_and_validate]
    rw [logRows_append, logRows_epochTrace_other args fold s epoch m p hp1 hp2]
    simp [ih]

/-- Rows written to the training log by one whole fold block: one per
epoch, and the block prologue and summary row contribute none. -/
lemma logRows_foldBlock_train (args : Args) (metricsOf : ℕ → ℕ → EpochMetrics) (i : ℕ) :
    (logRows (foldBlock args metricsOf i).1 (trainLogPath args)).length =
      args.num_train_epochs := by
  rw [foldBlock]
  simp only [logRows_append, List.length_append]
  rw [logRows_tav_train]
  simp [logRows, epochList, Ne.symm (trainLogPath_ne_bestResultPath args)]

/-- Rows written to the evaluation log by one whole fold block. -/
lemma logRows_foldBlock_eval (args : Args) (metricsOf : ℕ → ℕ → EpochMetrics) (i : ℕ) :
    (logRows (foldBlock args metricsOf i).1 (evalLogPath args)).length =
      args.num_train_epochs := by
  rw [foldBlock]
  simp only [logRows_append, List.length_append]
  rw [logRows_tav_eval]
  simp [logRows, epochList, Ne.symm (evalLogPath_ne_bestResultPath args)]

/-- Rows written to the cross-fold summary CSV by one fold block: exactly
the one summary row of that fold. -/
lemma logRows_foldBlock_summary (args : Args) (metricsOf : ℕ → ℕ → EpochMetrics) (i : ℕ) :
    logRows (foldBlock args metricsOf i).1 (bestResultPath args) =
      [[((i : ℚ) + 1), (foldBlock args metricsOf i).2.1,
        (foldBlock args metricsOf i).2.2.1, (foldBlock args metricsOf i).2.2.2]] := by
  rw [foldBlock]
  simp only [logRows_append]
  rw [logRows_tav_other args (i + 1) (bestResultPath args)
    (trainLogPath_ne_bestResultPath args) (evalLogPath_ne_bestResultPath args)]
  simp [logRows]

/-! Claim C3: where the CSV log rows actually go. -/

/-- C3 counterexample: a concrete run with 1 configured epoch.  The
training CSV log path does not embed the fold, all ten folds append to the
same file, and after the run that single file holds 10 rows — not the 1
row per fold the claim promises for per-fold log files. -/
theorem c3_counterexample :
    (⟨"out", false, false, false, 1, 16, 5, 1⟩ : Args).num_train_epochs = 1
    ∧ (logRows (main ⟨"out", false, false, false, 1, 16, 5, 1⟩
        (fun _ _ => ⟨0, 0, 0, 0, 0, 0, 0, 0⟩)).1
        (trainLogPath ⟨"out", false, false, false, 1, 16, 5, 1⟩)).length = 10
    ∧ (logRows (main ⟨"out", false, false, false, 1, 16, 5, 1⟩
        (fun _ _ => ⟨0, 0, 0, 0, 0, 0, 0, 0⟩)).1
        (trainLogPath ⟨"out", false, false, false, 1, 16, 5, 1⟩)).length ≠
      (⟨"out", false, false, false, 1, 16, 5, 1⟩ : Args).num_train_epochs := by
  refine ⟨rfl, ?_, ?_⟩ <;> decide

/-- C3 amended: the training and evaluation CSV logs are shared by all
folds — their paths encode the configured epoch count and the enabled
auxiliary feature groups in the fixed order aa, protein, ss, but not the
fold — and the files are appended to, so a run of E configured epochs
leaves 10·E rows in each of the two log files; the per-fold rows live in
the cross-fold summary CSV instead. -/
theorem c3_amended_shared_logs (args : Args) (metricsOf : ℕ → ℕ → EpochMetrics) :
    trainLogPath args =
      args.output_dir ++ "/logs/train_log_" ++ toString args.num_train_epochs ++
        ((if args.aa then "_aa" else "") ++ (if args.protein then "_protein" else "") ++
          (if args.ss then "_ss" else "")) ++ ".csv"
    ∧ evalLogPath args =
        args.output_dir ++ "/logs/eval_log_" ++ toString args.num_train_epochs ++
          ((if args.aa then "_aa" else "") ++ (if args.protein then "_protein" else "") ++
            (if args.ss then "_ss" else "")) ++ ".csv"
    ∧ (logRows (main args metricsOf).1 (trainLogPath args)).length =
        10 * args.num_train_epochs
    ∧ (logRows (main args metricsOf).1 (evalLogPath args)).length =
        10 * args.num_train_epochs := by
  refine ⟨rfl, rfl, ?_, ?_⟩
  · rw [main]
    simp only [logRows_flatten, List.map_map]
    rw [List.length_flatten]
    simp [Function.comp_def, logRows_foldBlock_train]
    omega
  · rw [main]
    simp only [logRows_flatten, List.map_map]
    rw [List.length_flatten]
    simp [Function.comp_def, logRows_foldBlock_eval]
    omega


/-! Counting and ordering lemmas for the fold orchestrator. -/

/-- One epoch performs exactly one scheduler step. -/
lemma countP_epochTrace_sched (args : Args) (fold : ℕ) (s : FoldState) (epoch : ℕ)
    (m : EpochMetrics) :
    (epochTrace args fold s epoch m).2.countP isSchedulerStep = 1 := by
  rw [epochTrace_events]
  by_cases h : s.maxR2 < m.evalR2 <;>
    by_cases h2 : m.evalLoss < s.bestEvalLoss <;>
      simp [h, h2, List.countP_append, List.countP_cons, isSchedulerStep]

/-- No epoch event is a model construction. -/
lemma countP_epochTrace_model (args : Args) (fold : ℕ) (s : FoldState) (epoch : ℕ)
    (m : EpochMetrics) :
    (epochTrace args fold s epoch m).2.countP isConstructModel = 0 := by
  rw [epochTrace_events]
  by_cases h : s.maxR2 < m.evalR2 <;>
    by_cases h2 : m.evalLoss < s.bestEvalLoss <;>
      simp [h, h2, List.countP_append, List.countP_cons, isConstructModel]

/-- No epoch event is an optimizer construction. -/
lemma countP_epochTrace_opt (args : Args) (fold : ℕ) (s : FoldState) (epoch : ℕ)
    (m : EpochMetrics) :
    (epochTrace args fold s epoch m).2.countP isConstructOptimizer = 0 := by
  rw [epochTrace_events]
  by_cases h : s.maxR2 < m.evalR2 <;>
    by_cases h2 : m.evalLoss < s.bestEvalLoss <;>
      simp [h, h2, List.countP_append, List.countP_cons, isConstructOptimizer]

/-- No epoch event is a scheduler construction. -/
lemma countP_epochTrace_schedCons (args : Args) (fold : ℕ) (s : FoldState) (epoch : ℕ)
    (m : EpochMetrics) :
    (epochTrace args fold s epoch m).2.countP isConstructScheduler = 0 := by
  rw [epochTrace_events]
  by_cases h : s.maxR2 < m.evalR2 <;>
    by_cases h2 : m.evalLoss < s.bestEvalLoss <;>
      simp [h, h2, List.countP_append, List.countP_cons, isConstructScheduler]

/-- Event counts over the epoch loop: `c` occurrences per epoch give
`ms.length * c` occurrences in total. -/
lemma countP_tav (args : Args) (fold : ℕ) (p : Event → Bool) (c : ℕ)
    (hc : ∀ (s : FoldState) (epoch : ℕ) (m : EpochMetrics),
      (epochTrace args fold s epoch m).2.countP p = c) :
    ∀ (ms : List EpochMetrics) (s : FoldState) (epoch : ℕ),
    (train_and_validate args fold s epoch ms).2.countP p = ms.length * c := by
  intro ms
  induction ms with
  | nil => intro s epoch; simp [train_and_validate]
  | cons m t ih =>
    intro s epoch
    simp only [train_and_validate]
    rw [List.countP_append, hc, ih]
    simp [Nat.succ_mul, Nat.add_comm]

/-- Helper: a family of single events, one from each block, forms a
sublist of the flattened blocks. -/
lemma map_sublist_flatten {α β : Type} (l : List α) (f : α → β) (g : α → List β)
    (h : ∀ a ∈ l, List.Sublist [f a] (g a)) :
    List.Sublist (l.map f) ((l.map g).flatten) := by
  induction l with
  | nil => simp
  | cons a t ih =>
    simp only [List.map_cons, List.flatten_cons]
    exact List.Sublist.append (h a (List.mem_cons_self a t))
      (ih (fun b hb => h b (List.mem_cons_of_mem a hb)))

/-- Flattening a family of singletons is mapping. -/
lemma flatten_map_singleton {α β : Type} (l : List α) (f : α → β) :
    ((l.map (fun a => [f a])).flatten) = l.map f := by
  induction l with
  | nil => rfl
  | cons a t ih => simp [ih]

/-- The model-construction event of fold block `i` heads the block. -/
lemma sublist_foldBlock_model (args : Args) (metricsOf : ℕ → ℕ → EpochMetrics) (i : ℕ) :
    List.Sublist [Event.constructModel (i + 1)] (foldBlock args metricsOf i).1 := by
  rw [foldBlock]
  refine List.Sublist.trans ?_ (List.sublist_append_left _ _)
  refine List.Sublist.trans ?_ (List.sublist_append_left _ _)
  exact List.Sublist.cons₂ _ (List.nil_sublist _)

/-- The optimizer-construction event of fold block `i`, carrying the
configured learning rate. -/
lemma sublist_foldBlock_opt (args : Args) (metricsOf : ℕ → ℕ → EpochMetrics) (i : ℕ) :
    List.Sublist [Event.constructOptimizer (i + 1) args.learning_rate]
      (foldBlock args metricsOf i).1 := by
  rw [foldBlock]
  refine List.Sublist.trans ?_ (List.sublist_append_left _ _)
  refine List.Sublist.trans ?_ (List.sublist_append_left _ _)
  exact List.Sublist.cons _ (List.Sublist.cons₂ _ (List.nil_sublist _))

/-- The scheduler-construction event of fold block `i`, carrying the
configured epoch horizon and floor learning rate. -/
lemma sublist_foldBlock_sched (args : Args) (metricsOf : ℕ → ℕ → EpochMetrics) (i : ℕ) :
    List.Sublist [Event.constructScheduler (i + 1) args.num_train_epochs args.lr_min]
      (foldBlock args metricsOf i).1 := by
  rw [foldBlock]
  refine List.Sublist.trans ?_ (List.sublist_append_left _ _)
  refine List.Sublist.trans ?_ (List.sublist_append_left _ _)
  exact List.Sublist.cons _ (List.Sublist.cons _ (List.Sublist.cons₂ _ (List.nil_sublist _)))

/-- Construct-event counts of a whole fold block. -/
lemma countP_foldBlock (args : Args) (metricsOf : ℕ → ℕ → EpochMetrics) (i : ℕ) :
    (foldBlock args metricsOf i).1.countP isConstructModel = 1
    ∧ (foldBlock args metricsOf i).1.countP isConstructOptimizer = 1
    ∧ (foldBlock args metricsOf i).1.countP isConstructScheduler = 1
    ∧ (foldBlock args metricsOf i).1.countP isSchedulerStep = args.num_train_epochs := by
  rw [foldBlock]
  simp only [List.countP_append]
  rw [countP_tav args (i + 1) isConstructModel 0 (countP_epochTrace_model args (i + 1)),
    countP_tav args (i + 1) isConstructOptimizer 0 (countP_epochTrace_opt args (i + 1)),
    countP_tav args (i + 1) isConstructScheduler 0 (countP_epochTrace_schedCons args (i + 1)),
    countP_tav args (i + 1) isSchedulerStep 1 (countP_epochTrace_sched args (i + 1))]
  simp [List.countP_cons, isConstructModel, isConstructOptimizer, isConstructScheduler,
    isSchedulerStep, epochList]

/-- Events of the whole run, as the flattened fold blocks. -/
lemma main_events (args : Args) (metricsOf : ℕ → ℕ → EpochMetrics) :
    (main args metricsOf).1 =
      ((List.range 10).map (fun i => (foldBlock args metricsOf i).1)).flatten := by
  simp [main, List.map_map, Function.comp_def]

/-! Claim C9: the fold orchestrator. -/

/-- C9: the run performs exactly 10 fold iterations whatever the
configuration, each constructing a fresh model, a fresh AdamW optimizer
with the configured learning rate and a fresh cosine-annealing schedule
over the configured epoch count with the configured floor learning rate,
in fold order; the scheduler is stepped exactly once per epoch, strictly
after that epoch's training pass and strictly before its evaluation pass;
exactly one summary row per fold is appended to the cross-fold summary
CSV; and the reported final result is the arithmetic mean over the 10
folds of each per-fold best metric. -/
theorem c9_fold_orchestrator (args : Args) (metricsOf : ℕ → ℕ → EpochMetrics) :
    (main args metricsOf).1.countP isConstructModel = 10
    ∧ (main args metricsOf).1.countP isConstructOptimizer = 10
    ∧ (main args metricsOf).1.countP isConstructScheduler = 10
    ∧ List.Sublist ((List.range 10).map (fun i => Event.constructModel (i + 1)))
        (main args metricsOf).1
    ∧ List.Sublist
        ((List.range 10).map (fun i => Event.constructOptimizer (i + 1) args.learning_rate))
        (main args metricsOf).1
    ∧ List.Sublist
        ((List.range 10).map (fun i =>
          Event.constructScheduler (i + 1) args.num_train_epochs args.lr_min))
        (main args metricsOf).1
    ∧ (main args metricsOf).1.countP isSchedulerStep = 10 * args.num_train_epochs
    ∧ (∀ (fold : ℕ) (s : FoldState) (epoch : ℕ) (m : EpochMetrics),
        (epochTrace args fold s epoch m).2.countP isSchedulerStep = 1
        ∧ List.Sublist
            [Event.trainPass fold epoch, Event.schedulerStep fold epoch,
             Event.evalPass fold epoch]
            (epochTrace args fold s epoch m).2)
    ∧ logRows (main args metricsOf).1 (bestResultPath args) =
        (List.range 10).map (fun (i : ℕ) =>
          [((i : ℚ) + 1), (foldBlock args metricsOf i).2.1,
           (foldBlock args metricsOf i).2.2.1, (foldBlock args metricsOf i).2.2.2])
    ∧ (main args metricsOf).2 =
        (((List.range 10).map (fun i => (foldBlock args metricsOf i).2.1)).sum / 10,
         ((List.range 10).map (fun i => (foldBlock args metricsOf i).2.2.1)).sum / 10,
         ((List.range 10).map (fun i => (foldBlock args metricsOf i).2.2.2)).sum / 10) := by
  have hev := main_events args metricsOf
  refine ⟨?_, ?_, ?_, ?_, ?_, ?_, ?_, ?_, ?_, ?_⟩
  · rw [hev, List.countP_flatten]
    have h : ∀ i, (foldBlock args metricsOf i).1.countP isConstructModel = 1 :=
      fun i => (countP_foldBlock args metricsOf i).1
    simp [List.map_map, Function.comp_def, h]
  · rw [hev, List.countP_flatten]
    have h : ∀ i, (foldBlock args metricsOf i).1.countP isConstructOptimizer = 1 :=
      fun i => (countP_foldBlock args metricsOf i).2.1
    simp [List.map_map, Function.comp_def, h]
  · rw [hev, List.countP_flatten]
    have h : ∀ i, (foldBlock args metricsOf i).1.countP isConstructScheduler = 1 :=
      fun i => (countP_foldBlock args metricsOf i).2.2.1
    simp [List.map_map, Function.comp_def, h]
  · rw [hev]
    exact map_sublist_flatten (List.range 10) _ _
      (fun i _ => sublist_foldBlock_model args metricsOf i)
  · rw [hev]
    exact map_sublist_flatten (List.range 10) _ _
      (fun i _ => sublist_foldBlock_opt args metricsOf i)
  · rw [hev]
    exact map_sublist_flatten (List.range 10) _ _
      (fun i _ => sublist_foldBlock_sched args metricsOf i)
  · rw [hev, List.countP_flatten]
    have h : ∀ i, (foldBlock args metricsOf i).1.countP isSchedulerStep =
        args.num_train_epochs := fun i => (countP_foldBlock args metricsOf i).2.2.2
    simp [List.map_map, Function.comp_def, h]
    omega
  · intro fold s epoch m
    refine ⟨countP_epochTrace_sched args fold s epoch m, ?_⟩
    rw [epochTrace_events]
    exact List.Sublist.cons₂ _ (List.Sublist.cons₂ _ (List.Sublist.cons _
      (List.Sublist.cons _ (List.Sublist.cons₂ _ (List.nil_sublist _)))))
  · rw [hev, logRows_flatten]
    have h : ∀ i, logRows (foldBlock args metricsOf i).1 (bestResultPath args) =
        [[((i : ℚ) + 1), (foldBlock args metricsOf i).2.1,
          (foldBlock args metricsOf i).2.2.1, (foldBlock args metricsOf i).2.2.2]] :=
      logRows_foldBlock_summary args metricsOf
    simp only [List.map_map, Function.comp_def, h]
    exact flatten_map_singleton (List.range 10) _
  · simp only [main, List.map_map, Function.comp_def, List.length_map, List.length_range]
    norm_num

/-- Helper: a `mapM` over `Option` whose every step succeeds is the plain
map of the default-stripped values. -/
lemma mapM_eq_some_map {α β : Type} (f : α → Option β) (d : β) :
    ∀ (l : List α), (∀ a ∈ l, (f a).isSome) →
    l.mapM f = some (l.map (fun a => (f a).getD d)) := by
  intro l
  induction l with
  | nil => intro _; rfl
  | cons a t ih =>
    intro h
    obtain ⟨b, hb⟩ := Option.isSome_iff_exists.mp (h a (List.mem_cons_self a t))
    rw [List.mapM_cons, hb, ih (fun x hx => h x (List.mem_cons_of_mem a hx))]
    simp [hb]

/-! Claim C6: training metrics are per-batch means, evaluation metrics are
global over the pooled valid positions. -/

/-- C6: over any epoch whose batches all admit metric computation, each
training metric returned by `train_epoch` is the arithmetic mean of the
per-batch values (loss, R², MSE, correlation alike), whereas `evaluate`
returns the per-batch mean only for the loss and computes R², MSE and
correlation once by `score_reg` on the predictions and targets pooled
across the entire evaluation set. -/
theorem c6_metric_aggregation (δ : ℚ) (batches : List Batch)
    (hne : batches ≠ [])
    (hok : ∀ b ∈ batches, (batchScore b).isSome) :
    train_epoch δ batches =
      some (listMean (batches.map (batchLoss δ)),
            listMean (batches.map (fun b => ((batchScore b).getD (0, 0, none)).1)),
            listMean (batches.map (fun b => ((batchScore b).getD (0, 0, none)).2.1)),
            meanOptR (batches.map (fun b => ((batchScore b).getD (0, 0, none)).2.2)))
    ∧ evaluate δ batches =
        (score_reg (pooledPreds batches) (pooledTrues batches)).map
          (fun s => (listMean (batches.map (batchLoss δ)), s.1, s.2.1, s.2.2)) := by
  refine ⟨?_, rfl⟩
  rw [train_epoch, mapM_eq_some_map batchScore (0, 0, none) batches hok]
  simp [hne, List.map_map, Function.comp_def]

/-- Witness for C6: one batch, two valid positions, predictions [0, 1]
against targets [0, 2]; the epoch result is the per-batch loss 1/4, R²
1/2, MSE 1/2 and correlation 1. -/
theorem c6_metric_aggregation_witness :
    ([(⟨[0, 1], [0, 2], [1, 1]⟩ : Batch)] ≠ []
    ∧ ∀ b ∈ [(⟨[0, 1], [0, 2], [1, 1]⟩ : Batch)], (batchScore b).isSome)
    ∧ train_epoch 1 [⟨[0, 1], [0, 2], [1, 1]⟩] =
        some (1 / 4, 1 / 2, 1 / 2, some 1) := by
  have hsel1 : selectValid [0, 1] [1, 1] = [(0 : ℚ), 1] := by decide
  have hsel2 : selectValid [0, 2] [1, 1] = [(0 : ℚ), 2] := by decide
  have hpe : pearson [(0 : ℚ), 2] [(0 : ℚ), 1] = some 1 := by
    rw [pearson]
    norm_num [listMean]
  have hbs : batchScore ⟨[0, 1], [0, 2], [1, 1]⟩ = some (1 / 2, 1 / 2, some 1) := by
    rw [batchScore, hsel1, hsel2, score_reg]
    norm_num [r2_score, ssTot, ssRes, listMean, mean_squared_error, hpe]
  have hok : ∀ b ∈ [(⟨[0, 1], [0, 2], [1, 1]⟩ : Batch)], (batchScore b).isSome := by
    intro b hb
    simp only [List.mem_singleton] at hb
    rw [hb, hbs]
    rfl
  have h := (c6_metric_aggregation 1 [⟨[0, 1], [0, 2], [1, 1]⟩] (by simp) hok).1
  refine ⟨⟨by simp, hok⟩, h.trans ?_⟩
  have hl : batchLoss 1 ⟨[0, 1], [0, 2], [1, 1]⟩ = 1 / 4 := by
    norm_num [batchLoss, maskedHuberLoss, huber, listMean]
  simp [hl, hbs, listMean, meanOptR, List.mapM_cons, List.mapM_nil]
  exact ⟨[(1 : ℝ)], rfl, by norm_num⟩

/-- Per-position output of the fusion head: one scalar (the regressor has
a single output row since `num_labels = 1`) and it is non-negative (a
rectified linear unit is the last operation). -/
lemma codenBertForwardPos_props (M : CodenBert) (useAF : Bool) (h af : List ℚ)
    (hw : M.regressor.weight.length = 1) (hb : M.regressor.bias.length = 1) :
    (codenBertForwardPos M useAF h af).length = 1
    ∧ ∀ x ∈ codenBertForwardPos M useAF h af, 0 ≤ x := by
  constructor
  · simp [codenBertForwardPos, reluVec, linearForward, List.length_zip, hw, hb]
  · intro x hx
    simp only [codenBertForwardPos, reluVec, List.mem_map] at hx
    obtain ⟨y, _, rfl⟩ := hx
    exact le_max_right y 0

/-! Claim C8: output shape and non-negativity of the fusion head. -/

/-- C8: for every input whose auxiliary tensor (when enabled) agrees in
shape with the encoder output, the fusion head output has one row per
batch item, one cell per sequence position, exactly one scalar per cell —
the shape (batch, sequence_length, 1) — and every scalar is non-negative,
the final rectified linear unit following the H → 1 regressor. -/
theorem c8_output_shape_nonneg (M : CodenBert) (f : FeatureFlags)
    (hidden : List (List (List ℚ))) (addFeat : Option (List (List (List ℚ))))
    (hw : M.regressor.weight.length = 1) (hb : M.regressor.bias.length = 1)
    (hs : shapeOkAux f hidden addFeat) :
    (codenBertForward M f hidden addFeat).length = hidden.length
    ∧ List.Forall₂ (fun (orow hrow : List (List ℚ)) => orow.length = hrow.length)
        (codenBertForward M f hidden addFeat) hidden
    ∧ ∀ row ∈ codenBertForward M f hidden addFeat, ∀ cell ∈ row,
        cell.length = 1 ∧ ∀ x ∈ cell, 0 ≤ x := by
  by_cases hf : useAdditionalFeature f
  · rw [shapeOkAux, if_pos hf] at hs
    obtain ⟨fs, rfl, hlen, hfa⟩ := hs
    have hrw : codenBertForward M f hidden (some fs) =
        (List.zip hidden fs).map (fun bp =>
          (List.zip bp.1 bp.2).map (fun p => codenBertForwardPos M true p.1 p.2)) := by
      simp [codenBertForward, hf]
    refine ⟨?_, ?_, ?_⟩
    · simp [hrw, List.length_zip, hlen]
    · rw [hrw]
      clear hrw hlen
      induction hfa with
      | nil => simp
      | cons hab htail ih =>
        simp only [List.zip_cons_cons, List.map_cons]
        exact List.Forall₂.cons (by simp [List.length_zip, hab]) ih
    · intro row hrow cell hcell
      rw [hrw] at hrow
      obtain ⟨bp, _, rfl⟩ := List.mem_map.mp hrow
      obtain ⟨p, _, rfl⟩ := List.mem_map.mp hcell
      exact codenBertForwardPos_props M true p.1 p.2 hw hb
  · have hrw : codenBertForward M f hidden addFeat =
        hidden.map (fun seq => seq.map (fun h => codenBertForwardPos M false h [])) := by
      simp [codenBertForward, hf]
    refine ⟨?_, ?_, ?_⟩
    · simp [hrw]
    · rw [hrw, List.forall₂_map_left_iff]
      rw [List.forall₂_same]
      intro seq _
      simp
    · intro row hrow cell hcell
      rw [hrw] at hrow
      obtain ⟨seq, _, rfl⟩ := List.mem_map.mp hrow
      obtain ⟨h, _, rfl⟩ := List.mem_map.mp hcell
      exact codenBertForwardPos_props M false h [] hw hb

/-- Witness for C8: a one-layer concrete head on a single position with
auxiliary features disabled; the output is the single non-negative scalar
7 in shape (1, 1, 1). -/
theorem c8_output_shape_nonneg_witness :
    ((⟨⟨[[2]], [1]⟩, ⟨[[1]], [0]⟩, ⟨[[1, 1]], [0]⟩⟩ : CodenBert).regressor.weight.length = 1
    ∧ shapeOkAux ⟨false, false, false⟩ [[[3]]] none)
    ∧ codenBertForward ⟨⟨[[2]], [1]⟩, ⟨[[1]], [0]⟩, ⟨[[1, 1]], [0]⟩⟩ ⟨false, false, false⟩
        [[[3]]] none = [[[7]]]
    ∧ (codenBertForward ⟨⟨[[2]], [1]⟩, ⟨[[1]], [0]⟩, ⟨[[1, 1]], [0]⟩⟩ ⟨false, false, false⟩
        [[[3]]] none).length = [[[(3 : ℚ)]]].length
    ∧ ∀ row ∈ codenBertForward ⟨⟨[[2]], [1]⟩, ⟨[[1]], [0]⟩, ⟨[[1, 1]], [0]⟩⟩
        ⟨false, false, false⟩ [[[3]]] none, ∀ cell ∈ row,
        cell.length = 1 ∧ ∀ x ∈ cell, 0 ≤ x := by
  have h := c8_output_shape_nonneg ⟨⟨[[2]], [1]⟩, ⟨[[1]], [0]⟩, ⟨[[1, 1]], [0]⟩⟩
    ⟨false, false, false⟩ [[[3]]] none rfl rfl (by simp [shapeOkAux, useAdditionalFeature])
  refine ⟨⟨rfl, by simp [shapeOkAux, useAdditionalFeature]⟩, ?_, h.1, h.2.2⟩
  norm_num [codenBertForward, useAdditionalFeature, codenBertForwardPos, reluVec,
    linearForward, dot, reluQ]

/-- Evaluation loader batching: batch size 1 splits the dataset into
singletons. -/
lemma chunkList_one {α : Type} (xs : List α) : chunkList 1 xs = xs.map (fun x => [x]) := by
  induction xs with
  | nil => simp [chunkList]
  | cons a t ih => simp [chunkList, ih]

/-- Collating a single-sequence chunk returns that sequence's batch. -/
lemma collate_singleton (b : Batch) : collate [b] = b := by
  cases b
  simp [collate]

/-! Claim C10: the evaluation loader uses the hardcoded batch size 1. -/

/-- C10: the evaluation loader is built with batch size 1 whatever the
configured batch size — every evaluation batch is exactly one sequence and
two different configurations produce the same evaluation loader — while
the configured batch size governs only the training loader; consequently
the evaluation loss returned by `evaluate` is the mean of per-sequence
masked losses. -/
theorem c10_eval_loader_batch_size_one (args argsB : Args) (δ : ℚ) (items : List Batch) :
    buildEvalLoader args items = items.map (fun b => [b])
    ∧ buildEvalLoader argsB items = buildEvalLoader args items
    ∧ buildTrainLoader args items = chunkList args.batch_size items
    ∧ (buildEvalLoader args items).map collate = items
    ∧ evaluate δ ((buildEvalLoader args items).map collate) =
        (score_reg (pooledPreds items) (pooledTrues items)).map
          (fun s =>
            (listMean (items.map (fun b => maskedHuberLoss δ b.pred b.density b.valid)),
             s.1, s.2.1, s.2.2)) := by
  have h1 : buildEvalLoader args items = items.map (fun b => [b]) := by
    rw [buildEvalLoader, chunkList_one]
  have h4 : (buildEvalLoader args items).map collate = items := by
    rw [h1, List.map_map]
    simp [Function.comp_def, collate_singleton]
  refine ⟨h1, rfl, rfl, h4, ?_⟩
  rw [h4]
  rfl

end VeloBert
